import Mathlib

/-!
WildAtlas: verification of the species-aggregation pipeline.

Shallow embedding of the WildAtlas Go repository (`internal/iucn`,
`internal/scraper`, `internal/handlers`) and proofs about the claims of
its specification.

The embedding makes the network and the scheduler explicit parameters:
* upstream responses (`CountryResponse`, per-taxon lookups, scraped
  Wikipedia table rows) are oracle arguments;
* the order in which the concurrent per-species detail fetches complete
  is an explicit `sched` argument (a list of pre-allocated slot writes);
  the code's behaviour for *every* completion order is quantified over
  all permutations of the dispatched task list;
* wall-clock time (`time.Now()`) is an explicit argument.
-/

/-!
Section: String primitives.

Kernel-computable embeddings of the Go string functions the repository
uses (`strings.Split` with a one-character separator, `strings.ToUpper`,
`strings.TrimSpace`). They operate on the character list of the string,
which lets concrete inputs evaluate inside proofs.
-/

/-- Split a character list at every character satisfying `p`, keeping
empty fragments — the semantics of Go's `strings.Split` for a
one-character separator. `acc` holds the (reversed) current fragment. -/
def splitChars (p : Char → Bool) : List Char → List Char → List String
  | [], acc => [String.mk acc.reverse]
  | c :: cs, acc =>
    if p c then String.mk acc.reverse :: splitChars p cs []
    else splitChars p cs (c :: acc)

/-- Go's `strings.Split(s, " ")`: fragments between space characters,
empty fragments kept, `[""]` for the empty string. -/
def splitOnSpace (s : String) : List String :=
  splitChars (fun c => c = ' ') s.toList []

/-- Go's `strings.ToUpper` restricted to what the repository feeds it
(ASCII country codes). -/
def strToUpper (s : String) : String := String.mk (s.data.map Char.toUpper)

/-- Go's `strings.TrimSpace`: drop leading and trailing whitespace. -/
def trimSpace (s : String) : String :=
  String.mk (((s.data.dropWhile Char.isWhitespace).reverse.dropWhile
    Char.isWhitespace).reverse)

namespace iucn

/-- `Assessment` from `internal/iucn/client.go`: one upstream assessment row
(scientific name and red-list category code). -/
structure Assessment where
  taxonScientificName : String
  redListCategoryCode : String
deriving DecidableEq, Repr

/-- `CommonName` from `internal/iucn/client.go`. -/
structure CommonName where
  name : String
  language : String
  main : Bool
deriving DecidableEq, Repr

/-- `TaxonDetails` from `internal/iucn/client.go`. -/
structure TaxonDetails where
  scientificName : String
  kingdomName : String
  phylumName : String
  className : String
  orderName : String
  familyName : String
  commonNames : List CommonName
deriving DecidableEq, Repr

/-- `Species` from `internal/iucn/client.go` (the output entity of the
IUCN pipeline variant). The Go field `Class` is spelled `«class»` because
`class` is a Lean keyword. -/
structure Species where
  name : String
  scientificName : String
  status : String
  kingdom : String
  phylum : String
  «class» : String
  order : String
  family : String
deriving DecidableEq, Repr

/-- The zero value `Species{}` used for the pre-allocated slots. -/
def emptySpecies : Species :=
  { name := "", scientificName := "", status := "", kingdom := ""
    phylum := "", «class» := "", order := "", family := "" }

/-- `CountryData` from `internal/iucn/client.go`. -/
structure CountryData where
  country : String
  countryCode : String
  species : List Species
deriving DecidableEq, Repr

/-- The decoded body of `GET /countries/{code}` (`CountryResponse` in
`internal/iucn/client.go`): the country's English description, its code,
and the assessment list. -/
structure CountryResponse where
  countryNameEn : String
  code : String
  assessments : List Assessment
deriving DecidableEq, Repr

/-- `isEndangered` from `internal/iucn/client.go`: the category filter
(`switch` on `"CR" | "EN" | "VU"`). -/
def isEndangered (code : String) : Bool :=
  match code with
  | "CR" | "EN" | "VU" => true
  | _ => false

/-- `mapCategory` from `internal/iucn/client.go`: category code to display
label; unknown codes map to themselves. -/
def mapCategory (code : String) : String :=
  match code with
  | "CR" => "Critically Endangered"
  | "EN" => "Endangered"
  | "VU" => "Vulnerable"
  | "NT" => "Near Threatened"
  | _ => code

/-- The control flow of `Client.GetSpeciesDetails` before any network
traffic: either the invalid-name early return (fewer than two parts after
`strings.Split(scientificName, " ")`), or an upstream call with the first
two parts as genus and species. -/
inductive DetailOutcome where
  | invalidName : DetailOutcome
  | upstream (genus species : String) : DetailOutcome
deriving DecidableEq, Repr

/-- The name-validation step of `Client.GetSpeciesDetails`
(`internal/iucn/client.go`): `parts := strings.Split(scientificName, " ")`,
error when `len(parts) < 2`, otherwise `genus, species := parts[0], parts[1]`. -/
def GetSpeciesDetailsStep (scientificName : String) : DetailOutcome :=
  let parts := splitOnSpace scientificName
  if parts.length < 2 then DetailOutcome.invalidName
  else DetailOutcome.upstream (parts.headD "") (parts.getD 1 "")

/-- `Client.GetSpeciesDetails` with the upstream `/taxa/scientific_name`
endpoint abstracted as the oracle `taxa : genus → species → Option TaxonDetails`
(`none` covers transport errors, non-200 statuses and decode failures). -/
def GetSpeciesDetails (taxa : String → String → Option TaxonDetails)
    (scientificName : String) : Option TaxonDetails :=
  match GetSpeciesDetailsStep scientificName with
  | DetailOutcome.invalidName => none
  | DetailOutcome.upstream genus species => taxa genus species

/-- The common-name loop inside the goroutine of
`Client.GetSpeciesByCountry`: `for _, cn := range details.CommonNames`,
overwriting `s.Name` at every `"eng"` entry and breaking at the first
`"eng"` entry whose `Main` flag is set. `acc` is the current `s.Name`. -/
def findEnglishName : List CommonName → String → String
  | [], acc => acc
  | cn :: rest, acc =>
    if cn.language = "eng" then
      if cn.main then cn.name else findEnglishName rest cn.name
    else findEnglishName rest acc

/-- The body of one dispatched goroutine of `Client.GetSpeciesByCountry`:
fetch details for the assessment, merge taxonomy and common name on
success, keep only assessment fields on failure, and fall back to the
scientific name when no common name was found. -/
def buildSpecies (taxa : String → String → Option TaxonDetails)
    (a : Assessment) : Species :=
  let s0 : Species :=
    { name := "", scientificName := a.taxonScientificName
      status := mapCategory a.redListCategoryCode
      kingdom := "", phylum := "", «class» := "", order := "", family := "" }
  let s1 : Species :=
    match GetSpeciesDetails taxa a.taxonScientificName with
    | some d =>
      { s0 with kingdom := d.kingdomName, phylum := d.phylumName
                «class» := d.className, order := d.orderName
                family := d.familyName
                name := findEnglishName d.commonNames "" }
    | none => s0
  if s1.name = "" then { s1 with name := s1.scientificName } else s1

/-- The dispatch loop of `Client.GetSpeciesByCountry`: walk the assessment
list, skip non-endangered categories, `break` once 20 slots exist, and
otherwise pre-allocate a slot (its index is the current list length `n`)
and record the goroutine's task `(idx, assessment)`. -/
def dispatch : List Assessment → Nat → List (Nat × Assessment)
  | [], _ => []
  | a :: rest, n =>
    if isEndangered a.redListCategoryCode then
      if 20 ≤ n then []
      else (n, a) :: dispatch rest (n + 1)
    else dispatch rest n

/-- The slot writes `speciesList[idx] = s` performed by the goroutines,
executed in completion order `sched`. -/
def applyWrites (taxa : String → String → Option TaxonDetails) :
    List (Nat × Assessment) → List Species → List Species
  | [], slots => slots
  | (i, a) :: rest, slots => applyWrites taxa rest (slots.set i (buildSpecies taxa a))

/-- The complete fan-out of `Client.GetSpeciesByCountry` for one
assessment list: pre-allocated slots (`Species{}` each), all dispatched
writes executed in completion order `sched`, `wg.Wait()` implicit in
returning only the fully written list. -/
def runFetch (taxa : String → String → Option TaxonDetails)
    (assessments : List Assessment) (sched : List (Nat × Assessment)) : List Species :=
  applyWrites taxa sched (List.replicate (dispatch assessments 0).length emptySpecies)

/-- `Client.GetCountryName` (`internal/iucn/client.go`): look the
uppercased code up in the `CountryCodeToName` index, echo the code when
absent. The index contents are the oracle `index`. -/
def GetCountryName (index : String → Option String) (code : String) : String :=
  match index (strToUpper code) with
  | some name => name
  | none => code

/-- `Client.GetSpeciesByCountry` (`internal/iucn/client.go`): uppercase
the code, decode the country response (`resp = none` covers transport
errors, non-200 statuses and decode failures, each an early error
return), run the bounded fan-out, resolve the country name with the
index fallback, and assemble the `CountryData`. -/
def GetSpeciesByCountry (resp : Option CountryResponse)
    (taxa : String → String → Option TaxonDetails)
    (index : String → Option String) (countryCode : String)
    (sched : List (Nat × Assessment)) : Option CountryData :=
  let cc := strToUpper countryCode
  match resp with
  | none => none
  | some r =>
    let speciesList := runFetch taxa r.assessments sched
    let countryName :=
      if r.countryNameEn = "" then GetCountryName index cc else r.countryNameEn
    some { country := countryName, countryCode := cc, species := speciesList }

/-- The assessments that receive a slot: the endangered-category ones,
truncated to the first 20 in discovery order. -/
def qualifying (assessments : List Assessment) : List Assessment :=
  (assessments.filter (fun a => isEndangered a.redListCategoryCode)).take 20

end iucn

namespace scraper

/-- `Species` from `internal/scraper` (the scraping pipeline's output
entity; note the extra population/habitat/threats fields). -/
structure Species where
  name : String
  scientificName : String
  status : String
  population : String
  habitat : String
  threats : String
deriving DecidableEq, Repr

/-- `CountryData` from `internal/scraper`, including the `LastUpdated`
freshness timestamp. -/
structure CountryData where
  country : String
  countryCode : String
  species : List Species
  lastUpdated : String
deriving DecidableEq, Repr

/-- The scraper's response cache (`Scraper.cache`), country code →
previously computed record. -/
def Cache : Type := String → Option CountryData

/-- The empty cache created by `NewScraper`. -/
def emptyCache : Cache := fun _ => none

/-- The `countryCodeToName` map literal from `internal/scraper`. -/
def countryCodeToName : List (String × String) :=
  [("US", "United States"), ("CA", "Canada"), ("MX", "Mexico"),
   ("BR", "Brazil"), ("AR", "Argentina"), ("GB", "United Kingdom"),
   ("FR", "France"), ("DE", "Germany"), ("IT", "Italy"), ("ES", "Spain"),
   ("PT", "Portugal"), ("CN", "China"), ("JP", "Japan"), ("IN", "India"),
   ("AU", "Australia"), ("NZ", "New Zealand"), ("ZA", "South Africa"),
   ("KE", "Kenya"), ("TZ", "Tanzania"), ("EG", "Egypt"), ("NG", "Nigeria"),
   ("RU", "Russia"), ("ID", "Indonesia"), ("MY", "Malaysia"),
   ("TH", "Thailand"), ("VN", "Vietnam"), ("PH", "Philippines"),
   ("KR", "South Korea"), ("PK", "Pakistan"), ("BD", "Bangladesh"),
   ("CO", "Colombia"), ("PE", "Peru"), ("VE", "Venezuela"), ("CL", "Chile"),
   ("EC", "Ecuador"), ("BO", "Bolivia"), ("PY", "Paraguay"),
   ("UY", "Uruguay"), ("CR", "Costa Rica"), ("PA", "Panama"), ("CU", "Cuba"),
   ("GT", "Guatemala"), ("HN", "Honduras"), ("NI", "Nicaragua"),
   ("SV", "El Salvador"), ("BZ", "Belize"), ("MG", "Madagascar"),
   ("MW", "Malawi"), ("ZM", "Zambia"), ("ZW", "Zimbabwe"),
   ("BW", "Botswana"), ("NA", "Namibia"), ("AO", "Angola"),
   ("MZ", "Mozambique"), ("CD", "Democratic Republic of the Congo"),
   ("CG", "Republic of the Congo"), ("GA", "Gabon"), ("CM", "Cameroon"),
   ("GH", "Ghana"), ("CI", "Ivory Coast"), ("SN", "Senegal"), ("ML", "Mali"),
   ("NE", "Niger"), ("TD", "Chad"), ("SD", "Sudan"), ("ET", "Ethiopia"),
   ("SO", "Somalia"), ("UG", "Uganda"), ("RW", "Rwanda"), ("BI", "Burundi"),
   ("NP", "Nepal"), ("BT", "Bhutan"), ("LK", "Sri Lanka"), ("MM", "Myanmar"),
   ("LA", "Laos"), ("KH", "Cambodia"), ("SG", "Singapore"), ("BN", "Brunei"),
   ("PG", "Papua New Guinea"), ("FJ", "Fiji"), ("NO", "Norway"),
   ("SE", "Sweden"), ("FI", "Finland"), ("DK", "Denmark"), ("IS", "Iceland"),
   ("IE", "Ireland"), ("NL", "Netherlands"), ("BE", "Belgium"),
   ("LU", "Luxembourg"), ("CH", "Switzerland"), ("AT", "Austria"),
   ("PL", "Poland"), ("CZ", "Czech Republic"), ("SK", "Slovakia"),
   ("HU", "Hungary"), ("RO", "Romania"), ("BG", "Bulgaria"), ("GR", "Greece"),
   ("TR", "Turkey"), ("UA", "Ukraine"), ("BY", "Belarus"), ("RS", "Serbia"),
   ("HR", "Croatia"), ("SI", "Slovenia"), ("BA", "Bosnia and Herzegovina"),
   ("MK", "North Macedonia"), ("AL", "Albania"), ("ME", "Montenegro"),
   ("XK", "Kosovo"), ("MD", "Moldova"), ("EE", "Estonia"), ("LV", "Latvia"),
   ("LT", "Lithuania")]

/-- `GetCountryName` from `internal/scraper`: look the uppercased code up
in `countryCodeToName`, echo the code when absent. -/
def GetCountryName (code : String) : String :=
  match countryCodeToName.find? (fun p => p.fst == strToUpper code) with
  | some p => p.snd
  | none => code

/-- The row-parsing loop of `Scraper.scrapeWikipedia`
(`doc.Find("table.wikitable tbody tr").Each`): the document's table rows
are given as their lists of `<td>` cell texts, in document order. Row 0
is skipped as the header; a row contributes a species when it has at
least two cells, a non-empty trimmed name, and fewer than 20 species
were collected so far; the third cell overrides the default
`"Endangered"` status. -/
def parseRows : List (List String) → Nat → List Species → List Species
  | [], _, acc => acc
  | row :: rest, i, acc =>
    if i = 0 then parseRows rest (i + 1) acc
    else if 2 ≤ row.length then
      let name := trimSpace (row.headD "")
      let scientificName := trimSpace (row.getD 1 "")
      if name ≠ "" ∧ acc.length < 20 then
        let status :=
          if 3 ≤ row.length then trimSpace (row.getD 2 "") else "Endangered"
        parseRows rest (i + 1)
          (acc ++ [{ name := name, scientificName := scientificName
                     status := status, population := "", habitat := ""
                     threats := "" }])
      else parseRows rest (i + 1) acc
    else parseRows rest (i + 1) acc

/-- `Scraper.scrapeWikipedia` with the HTTP fetch and HTML parse
abstracted into `fetched` (`none` covers request/transport/status/parse
failures; `some rows` is the list of table rows, each a list of cell
texts). Returns an error when no species could be parsed. -/
def scrapeWikipedia (fetched : Option (List (List String))) :
    Option (List Species) :=
  match fetched with
  | none => none
  | some rows =>
    let species := parseRows rows 0 []
    if species.isEmpty then none else some species

/-- The `sampleDataByRegion` map literal from `Scraper.getSampleData`. -/
def sampleDataByRegion : List (String × List Species) :=
  [("US",
    [⟨"California Condor", "Gymnogyps californianus", "Critically Endangered", "~500", "Mountains and forests", "Habitat loss, lead poisoning"⟩,
     ⟨"Florida Panther", "Puma concolor coryi", "Endangered", "~200", "Swamps and forests", "Habitat fragmentation, vehicle collisions"⟩,
     ⟨"Hawaiian Monk Seal", "Neomonachus schauinslandi", "Endangered", "~1,400", "Hawaiian Islands", "Climate change, marine debris"⟩,
     ⟨"Red Wolf", "Canis rufus", "Critically Endangered", "~20 in wild", "Forests and wetlands", "Hybridization, habitat loss"⟩,
     ⟨"Ocelot", "Leopardus pardalis", "Endangered", "~100 in US", "Dense thorny scrubland", "Habitat loss, vehicle strikes"⟩]),
   ("BR",
    [⟨"Golden Lion Tamarin", "Leontopithecus rosalia", "Endangered", "~3,200", "Atlantic Forest", "Deforestation, illegal pet trade"⟩,
     ⟨"Hyacinth Macaw", "Anodorhynchus hyacinthinus", "Vulnerable", "~6,500", "Pantanal wetlands", "Illegal trade, habitat loss"⟩,
     ⟨"Jaguar", "Panthera onca", "Near Threatened", "~170,000", "Rainforests and wetlands", "Deforestation, poaching"⟩,
     ⟨"Amazon River Dolphin", "Inia geoffrensis", "Endangered", "Unknown", "Amazon River system", "Dam construction, pollution"⟩,
     ⟨"Black Lion Tamarin", "Leontopithecus chrysopygus", "Endangered", "~1,000", "Atlantic Forest", "Habitat fragmentation"⟩]),
   ("CN",
    [⟨"Giant Panda", "Ailuropoda melanoleuca", "Vulnerable", "~1,800", "Mountain bamboo forests", "Habitat loss, low birth rate"⟩,
     ⟨"South China Tiger", "Panthera tigris amoyensis", "Critically Endangered", "~0 in wild", "Temperate forests", "Poaching, habitat loss"⟩,
     ⟨"Chinese Alligator", "Alligator sinensis", "Critically Endangered", "~150 in wild", "Yangtze River wetlands", "Habitat destruction, pollution"⟩,
     ⟨"Yangtze Finless Porpoise", "Neophocaena asiaeorientalis", "Critically Endangered", "~1,000", "Yangtze River", "Pollution, boat traffic"⟩,
     ⟨"Crested Ibis", "Nipponia nippon", "Endangered", "~2,600", "Wetlands and rice paddies", "Habitat loss, pesticides"⟩]),
   ("IN",
    [⟨"Bengal Tiger", "Panthera tigris tigris", "Endangered", "~3,000", "Forests and grasslands", "Poaching, habitat loss"⟩,
     ⟨"Asian Elephant", "Elephas maximus", "Endangered", "~27,000 in India", "Forests and grasslands", "Habitat fragmentation, human conflict"⟩,
     ⟨"Indian Rhinoceros", "Rhinoceros unicornis", "Vulnerable", "~3,700", "Grasslands and riverine areas", "Poaching, habitat loss"⟩,
     ⟨"Ganges River Dolphin", "Platanista gangetica", "Endangered", "~3,500", "Ganges River system", "Pollution, dam construction"⟩,
     ⟨"Snow Leopard", "Panthera uncia", "Vulnerable", "~500 in India", "High mountain regions", "Poaching, climate change"⟩]),
   ("AU",
    [⟨"Koala", "Phascolarctos cinereus", "Vulnerable", "~100,000", "Eucalyptus forests", "Habitat loss, disease, bushfires"⟩,
     ⟨"Numbat", "Myrmecobius fasciatus", "Endangered", "~1,000", "Eucalyptus woodlands", "Predation by foxes and cats"⟩,
     ⟨"Leadbeater's Possum", "Gymnobelideus leadbeateri", "Critically Endangered", "~1,500", "Mountain ash forests", "Logging, bushfires"⟩,
     ⟨"Northern Hairy-nosed Wombat", "Lasiorhinus krefftii", "Critically Endangered", "~300", "Semi-arid grasslands", "Competition with cattle, drought"⟩,
     ⟨"Tasmanian Devil", "Sarcophilus harrisii", "Endangered", "~25,000", "Tasmanian forests", "Devil facial tumour disease"⟩]),
   ("KE",
    [⟨"Black Rhinoceros", "Diceros bicornis", "Critically Endangered", "~750 in Kenya", "Savannas and forests", "Poaching for horn"⟩,
     ⟨"African Wild Dog", "Lycaon pictus", "Endangered", "~600 in Kenya", "Savannas and grasslands", "Habitat fragmentation, human conflict"⟩,
     ⟨"Grevy's Zebra", "Equus grevyi", "Endangered", "~2,800", "Semi-arid grasslands", "Habitat loss, competition with livestock"⟩,
     ⟨"Hirola", "Beatragus hunteri", "Critically Endangered", "~500", "Semi-arid grasslands", "Drought, habitat loss, disease"⟩,
     ⟨"Mountain Bongo", "Tragelaphus eurycerus isaaci", "Critically Endangered", "~100 in wild", "Mountain forests", "Poaching, habitat loss"⟩]),
   ("MG",
    [⟨"Aye-aye", "Daubentonia madagascariensis", "Endangered", "Unknown", "Rainforests", "Deforestation, persecution"⟩,
     ⟨"Indri", "Indri indri", "Critically Endangered", "~10,000", "Rainforests", "Habitat loss, hunting"⟩,
     ⟨"Silky Sifaka", "Propithecus candidus", "Critically Endangered", "~250", "Mountain rainforests", "Habitat loss, hunting"⟩,
     ⟨"Radiated Tortoise", "Astrochelys radiata", "Critically Endangered", "Unknown", "Spiny forests", "Illegal pet trade, habitat loss"⟩,
     ⟨"Ploughshare Tortoise", "Astrochelys yniphora", "Critically Endangered", "~500", "Bamboo scrub", "Illegal pet trade"⟩]),
   ("ID",
    [⟨"Sumatran Tiger", "Panthera tigris sumatrae", "Critically Endangered", "~400", "Tropical rainforests", "Poaching, deforestation"⟩,
     ⟨"Sumatran Orangutan", "Pongo abelii", "Critically Endangered", "~14,000", "Tropical rainforests", "Habitat loss, illegal trade"⟩,
     ⟨"Javan Rhinoceros", "Rhinoceros sondaicus", "Critically Endangered", "~70", "Tropical rainforests", "Poaching, habitat loss"⟩,
     ⟨"Sumatran Rhinoceros", "Dicerorhinus sumatrensis", "Critically Endangered", "~80", "Tropical rainforests", "Poaching, habitat loss"⟩,
     ⟨"Komodo Dragon", "Varanus komodoensis", "Endangered", "~3,000", "Islands of Indonesia", "Habitat loss, climate change"⟩])]

/-- `Scraper.getSampleData`: the per-region sample data, with a single
placeholder record for countries without specific data. -/
def getSampleData (countryCode : String) : List Species :=
  match sampleDataByRegion.find? (fun p => p.fst == countryCode) with
  | some p => p.snd
  | none =>
    [⟨"Data unavailable", "N/A", "Please check IUCN Red List", "Unknown",
      "Various", "Multiple factors"⟩]

/-- `Scraper.scrapeSpeciesData`: resolve the country name, try the
Wikipedia scrape, fall back to sample data when it fails; its only
return statement carries a `nil` error, so the result is always `some`.
`now` is the `time.Now().Format(time.RFC3339)` timestamp. -/
def scrapeSpeciesData (fetched : Option (List (List String)))
    (countryCode : String) (now : String) : Option CountryData :=
  let countryName := GetCountryName countryCode
  let species :=
    match scrapeWikipedia fetched with
    | some sp => sp
    | none => getSampleData countryCode
  some { country := countryName, countryCode := countryCode
         species := species, lastUpdated := now }

/-- `Scraper.GetSpeciesByCountry`: uppercase the code, serve a cache hit,
otherwise compute via `scrapeSpeciesData` and store the record. Returns
the response together with the cache state after the call. -/
def GetSpeciesByCountry (fetched : Option (List (List String)))
    (st : Cache) (countryCode : String) (now : String) :
    Option CountryData × Cache :=
  let cc := strToUpper countryCode
  match st cc with
  | some data => (some data, st)
  | none =>
    match scrapeSpeciesData fetched cc now with
    | none => (none, st)
    | some data => (some data, fun c => if c = cc then some data else st c)

end scraper

namespace handlers

/-- The status-code decision of `Handler.GetSpeciesByCountry`
(`internal/handlers/handlers.go`) on a GET request: trim the path
remainder, reject empty or non-2-character codes with 400, answer 500
when the scraper errors and 200 otherwise. CORS headers, OPTIONS and
non-GET methods are outside the claims and not modelled. -/
def handlerStatus (fetched : Option (List (List String))) (st : scraper.Cache)
    (path : String) (now : String) : Nat :=
  let countryCode := trimSpace path
  if countryCode = "" then 400
  else if countryCode.length ≠ 2 then 400
  else
    match (scraper.GetSpeciesByCountry fetched st countryCode now).1 with
    | none => 500
    | some _ => 200

end handlers

namespace iucn

/-!
Section: The semaphore discipline of the detail fan-out.

`Client.GetSpeciesByCountry` creates `sem := make(chan struct{}, 10)`;
every dispatched goroutine performs `sem <- struct{}{}` before its
`GetSpeciesDetails` call and `<-sem` after it. The interleaving of the
goroutines is modelled as a transition system over the phase of every
task: an `acquire` step needs a free semaphore slot and puts the task's
detail call in flight, a `release` step ends it.
-/

/-- The capacity of the semaphore channel, `make(chan struct{}, 10)`. -/
def semCapacity : Nat := 10

/-- The phase of one dispatched task: not yet through `sem <-`,
holding a slot with its detail call in flight, or finished. -/
inductive TaskPhase where
  | pending : TaskPhase
  | inCall : TaskPhase
  | finished : TaskPhase
deriving DecidableEq, Repr

/-- The number of detail-fetch calls currently in flight. -/
def inFlight (phases : List TaskPhase) : Nat :=
  phases.countP (fun p => p == TaskPhase.inCall)

/-- One scheduler step of the fan-out: task `i` acquires the semaphore
(possible only when a slot is free, i.e. fewer than `semCapacity` calls
are in flight) or releases it. -/
inductive SemStep : List TaskPhase → List TaskPhase → Prop
  | acquire (phases : List TaskPhase) (i : Nat)
      (hp : phases[i]? = some TaskPhase.pending)
      (hcap : inFlight phases < semCapacity) :
      SemStep phases (phases.set i TaskPhase.inCall)
  | release (phases : List TaskPhase) (i : Nat)
      (hp : phases[i]? = some TaskPhase.inCall) :
      SemStep phases (phases.set i TaskPhase.finished)

/-- The executions of a fan-out over `n` dispatched tasks: every state
reachable from the all-pending initial state by scheduler steps. -/
def SemReachable (n : Nat) (phases : List TaskPhase) : Prop :=
  Relation.ReflTransGen SemStep (List.replicate n TaskPhase.pending) phases

end iucn

namespace iucn

/-- Declarative description of the common-name loop's result: the first
English entry with the primary flag if one exists, otherwise the *last*
English-tagged entry, otherwise the empty string. -/
def lastEnglishChoice (cns : List CommonName) : String :=
  match cns.find? (fun c => c.language == "eng" && c.main) with
  | some c => c.name
  | none =>
    match (cns.filter (fun c => c.language == "eng")).getLast? with
    | some c => c.name
    | none => ""

end iucn

namespace scraper

/-- Cache well-formedness for the country-code claim: every cached
record sits under its own (uppercased) country code. -/
def CacheCodesWF (st : Cache) : Prop :=
  ∀ k d, st k = some d → d.countryCode = k

/-- Cache well-formedness for the name claim: every cached record
carries only species with non-empty names. -/
def CacheNamesWF (st : Cache) : Prop :=
  ∀ k d, st k = some d → ∀ sp ∈ d.species, sp.name ≠ ""

end scraper

/-!
Section: Specification-side definitions used for comparison.
-/

/-- The name requirement exactly as the specification words it: the
whitespace-separated tokens of the scientific name (the genus and
species words). Stated only for comparison with the single-space
`strings.Split` the code performs. -/
def specWhitespaceTokens (s : String) : List String :=
  (splitChars (fun c => c.isWhitespace) s.toList []).filter (fun t => t ≠ "")

/-- The common-name selection policy exactly as the specification words
it: the first English entry whose primary flag is set, else the *first*
English-tagged entry, else nothing (scientific-name fallback). Stated
only for comparison with the loop the code actually runs. -/
def firstEnglishChoice (cns : List iucn.CommonName) : Option String :=
  match cns.find? (fun c => c.language == "eng" && c.main) with
  | some c => some c.name
  | none =>
    match cns.find? (fun c => c.language == "eng") with
    | some c => some c.name
    | none => none

/-!
Section: Concrete inputs for witnesses and counterexamples.
-/

/-- A critically endangered assessment used in concrete runs. -/
def wA : iucn.Assessment := ⟨"Panthera onca", "CR"⟩

/-- An endangered assessment used in concrete runs. -/
def wB : iucn.Assessment := ⟨"Ailurus fulgens", "EN"⟩

/-- A near-threatened assessment (filtered out) used in concrete runs. -/
def wN : iucn.Assessment := ⟨"Meles meles", "NT"⟩

/-- A concrete country response with a near-threatened row between two
qualifying rows. -/
def wResp : iucn.CountryResponse := ⟨"Brazil", "BR", [wA, wN, wB]⟩

/-- A taxa oracle on which every detail fetch fails. -/
def wTaxaFail : String → String → Option iucn.TaxonDetails := fun _ _ => none

/-- An empty country-name index. -/
def wIndex : String → Option String := fun _ => none

/-- A completion order that finishes the second dispatched task first. -/
def wSchedRev : List (Nat × iucn.Assessment) := [(1, wB), (0, wA)]

/-- Two English common names, neither with the primary flag. -/
def wCommonNames : List iucn.CommonName := [⟨"A", "eng", false⟩, ⟨"B", "eng", false⟩]

/-- A taxon detail whose common names are `wCommonNames`. -/
def wDetails : iucn.TaxonDetails := ⟨"Testus examplus", "", "", "", "", "", wCommonNames⟩

/-- A taxa oracle that always answers `wDetails`. -/
def wTaxaDetails : String → String → Option iucn.TaxonDetails := fun _ _ => some wDetails

/-- An assessment whose detail fetch succeeds against `wTaxaDetails`. -/
def wAssessmentT : iucn.Assessment := ⟨"Testus examplus", "EN"⟩

/-- An upstream assessment with an empty scientific name. -/
def wEmptyNameAssessment : iucn.Assessment := ⟨"", "CR"⟩

/-- A country response carrying only the empty-named assessment. -/
def wEmptyNameResp : iucn.CountryResponse := ⟨"Atlantis", "AQ", [wEmptyNameAssessment]⟩

/-- A country response with 23 qualifying assessments (over the cap). -/
def wBigResp : iucn.CountryResponse := ⟨"Brazil", "BR", List.replicate 23 wA⟩

/-!
Section: Lemmas about the fan-out.
-/

namespace iucn

/-- Counting after a slot write, in additive form. -/
theorem countP_set (p : TaskPhase → Bool) (l : List TaskPhase) (i : Nat)
    (a b : TaskPhase) (h : l[i]? = some b) :
    (l.set i a).countP p + (if p b then 1 else 0) =
      l.countP p + (if p a then 1 else 0) := by
  induction l generalizing i with
  | nil => simp at h
  | cons c rest ih =>
    cases i with
    | zero =>
      simp only [List.getElem?_cons_zero, Option.some.injEq] at h
      subst h
      simp [List.countP_cons]
      omega
    | succ j =>
      simp only [List.getElem?_cons_succ] at h
      simp only [List.set_cons_succ, List.countP_cons]
      have := ih j h
      omega

/-- The dispatch loop enumerates the qualifying assessments that still
fit under the cap, tagging each with its pre-allocated slot index. -/
theorem dispatch_eq_enumFrom (assessments : List Assessment) (n : Nat) :
    dispatch assessments n =
      List.enumFrom n
        ((assessments.filter (fun a => isEndangered a.redListCategoryCode)).take
          (20 - n)) := by
  induction assessments generalizing n with
  | nil => simp [dispatch]
  | cons a rest ih =>
    simp only [dispatch]
    cases he : isEndangered a.redListCategoryCode with
    | false =>
      rw [if_neg (by simp [he]), ih, List.filter_cons_of_neg (by simpa using he)]
    | true =>
      rw [if_pos (by simp [he]), List.filter_cons_of_pos (by simpa using he)]
      by_cases hn : 20 ≤ n
      · have h20 : 20 - n = 0 := by omega
        rw [if_pos hn, h20]
        rfl
      · have h20 : 20 - n = (20 - (n + 1)) + 1 := by omega
        rw [if_neg hn, ih, h20, List.take_succ_cons]
        rfl

/-- The dispatched tasks are exactly the qualifying assessments paired
with their slot indices. -/
theorem dispatch_eq_enum (assessments : List Assessment) :
    dispatch assessments 0 = (qualifying assessments).enum := by
  rw [dispatch_eq_enumFrom]
  rfl

/-- Slot writes preserve the length of the result list. -/
theorem length_applyWrites (taxa : String → String → Option TaxonDetails)
    (sched : List (Nat × Assessment)) (slots : List Species) :
    (applyWrites taxa sched slots).length = slots.length := by
  induction sched generalizing slots with
  | nil => rfl
  | cons t rest ih =>
    obtain ⟨i, a⟩ := t
    rw [applyWrites, ih, List.length_set]

/-- What one slot holds after all writes complete, provided no two
writes target the same slot: the value of the unique task writing it, or
the initial slot value when no task targets it. -/
theorem applyWrites_getElem? (taxa : String → String → Option TaxonDetails)
    (sched : List (Nat × Assessment)) (slots : List Species) (i : Nat)
    (hn : (sched.map Prod.fst).Nodup) :
    (applyWrites taxa sched slots)[i]? =
      match sched.find? (fun t => t.fst == i) with
      | some t => if i < slots.length then some (buildSpecies taxa t.snd) else none
      | none => slots[i]? := by
  induction sched generalizing slots with
  | nil => rfl
  | cons t rest ih =>
    obtain ⟨j, a⟩ := t
    simp only [List.map_cons, List.nodup_cons] at hn
    obtain ⟨hj, hrest⟩ := hn
    by_cases hij : j = i
    · subst hij
      have hfind : rest.find? (fun t => t.fst == j) = none := by
        rw [List.find?_eq_none]
        intro x hx hpx
        exact hj (by
          have : x.fst = j := by simpa using hpx
          exact this ▸ List.mem_map_of_mem Prod.fst hx)
      rw [applyWrites, ih _ hrest]
      rw [List.find?_cons_of_pos _ (by simp), hfind]
      rw [List.getElem?_set_self']
      cases hsl : slots[j]? with
      | none =>
        have : slots.length ≤ j := List.getElem?_eq_none_iff.mp hsl
        simp [Option.map, Nat.not_lt.mpr this]
      | some s =>
        have : j < slots.length := by
          by_contra hcon
          rw [List.getElem?_eq_none_iff.mpr (Nat.not_lt.mp hcon)] at hsl
          exact Option.noConfusion hsl
        simp [Option.map, this]
    · rw [applyWrites, ih _ hrest]
      rw [List.find?_cons_of_neg _ (by simp [hij])]
      cases hfind : rest.find? (fun t => t.fst == i) with
      | none => simp [List.getElem?_set_ne hij]
      | some t' => simp [List.length_set]

/-- The fan-out is deterministic in the completion order: for every
permutation of the dispatched tasks, the final species list is the
qualifying assessments mapped through the per-item goroutine body. -/
theorem runFetch_perm (taxa : String → String → Option TaxonDetails)
    (assessments : List Assessment) (sched : List (Nat × Assessment))
    (h : sched.Perm (dispatch assessments 0)) :
    runFetch taxa assessments sched =
      (qualifying assessments).map (buildSpecies taxa) := by
  have htasks := dispatch_eq_enum assessments
  have hnodup : (sched.map Prod.fst).Nodup := by
    refine ((h.map Prod.fst).nodup_iff).mpr ?_
    rw [htasks]
    exact List.nodup_enum_map_fst _
  have hlen : (dispatch assessments 0).length = (qualifying assessments).length := by
    rw [htasks, List.enum_length]
  refine List.ext_getElem? fun i => ?_
  rw [runFetch, applyWrites_getElem? taxa sched _ i hnodup]
  rw [List.getElem?_map]
  cases hfind : sched.find? (fun t => t.fst == i) with
  | some t =>
    have hpt : t.fst = i := by simpa using List.find?_some hfind
    have hmem : t ∈ dispatch assessments 0 :=
      (h.mem_iff).mp (List.mem_of_find?_eq_some hfind)
    rw [htasks] at hmem
    have hget : (qualifying assessments)[t.fst]? = some t.snd :=
      List.mk_mem_enum_iff_getElem?.mp hmem
    rw [hpt] at hget
    have hi : i < (qualifying assessments).length := by
      by_contra hcon
      rw [List.getElem?_eq_none_iff.mpr (Nat.not_lt.mp hcon)] at hget
      exact Option.noConfusion hget
    rw [hget]
    simp [List.length_replicate, hlen, hi]
  | none =>
    have hnone : (qualifying assessments)[i]? = none := by
      cases hget : (qualifying assessments)[i]? with
      | none => rfl
      | some a =>
        have hmem : (i, a) ∈ dispatch assessments 0 := by
          rw [htasks]
          exact List.mk_mem_enum_iff_getElem?.mpr hget
        have : (i, a) ∈ sched := (h.mem_iff).mpr hmem
        have := (List.find?_eq_none.mp hfind) _ this
        simp at this
    rw [hnone]
    have hge : (qualifying assessments).length ≤ i :=
      List.getElem?_eq_none_iff.mp hnone
    exact List.getElem?_eq_none_iff.mpr (by rw [List.length_replicate, hlen]; exact hge)

end iucn

namespace iucn

/-- The common-name loop computes `lastEnglishChoice`, with the running
`s.Name` value `acc` surviving only when no English entry occurs. -/
theorem findEnglishName_eq (cns : List CommonName) (acc : String) :
    findEnglishName cns acc =
      match cns.find? (fun c => c.language == "eng" && c.main) with
      | some c => c.name
      | none =>
        match (cns.filter (fun c => c.language == "eng")).getLast? with
        | some c => c.name
        | none => acc := by
  induction cns generalizing acc with
  | nil => rfl
  | cons c rest ih =>
    by_cases hl : c.language = "eng"
    · cases hm : c.main with
      | true =>
        rw [findEnglishName, if_pos hl, if_pos hm,
          List.find?_cons_of_pos _ (by simp [hl, hm])]
      | false =>
        rw [findEnglishName, if_pos hl, if_neg (by simp [hm]), ih,
          List.find?_cons_of_neg _ (by simp [hm]),
          List.filter_cons_of_pos (by simp [hl])]
        cases hfind : rest.find? (fun c => c.language == "eng" && c.main) with
        | some c' => rfl
        | none =>
          rw [List.getLast?_cons]
          cases hg : (rest.filter (fun c => c.language == "eng")).getLast? with
          | some c' => simp [hg]
          | none => simp [hg]
    · rw [findEnglishName, if_neg hl, ih,
        List.find?_cons_of_neg _ (by simp [hl]),
        List.filter_cons_of_neg (by simpa using hl)]

/-- The display name after the goroutine body: the loop's choice, with
the scientific name substituted when that choice is empty (covering in
particular every failed detail fetch). -/
theorem buildSpecies_name (taxa : String → String → Option TaxonDetails)
    (a : Assessment) :
    (buildSpecies taxa a).name =
      match GetSpeciesDetails taxa a.taxonScientificName with
      | some d =>
        if lastEnglishChoice d.commonNames = "" then a.taxonScientificName
        else lastEnglishChoice d.commonNames
      | none => a.taxonScientificName := by
  rw [buildSpecies]
  cases hd : GetSpeciesDetails taxa a.taxonScientificName with
  | none => simp
  | some d =>
    simp only [findEnglishName_eq, lastEnglishChoice]
    cases hfind : d.commonNames.find? (fun c => c.language == "eng" && c.main) with
    | some c' => by_cases hc : c'.name = "" <;> simp [hc]
    | none =>
      cases hg : (d.commonNames.filter (fun c => c.language == "eng")).getLast? with
      | some c' => by_cases hc : c'.name = "" <;> simp [hc]
      | none => simp

/-- A failed detail fetch degrades to the assessment-only record. -/
theorem buildSpecies_of_fetch_failed (taxa : String → String → Option TaxonDetails)
    (a : Assessment) (h : GetSpeciesDetails taxa a.taxonScientificName = none) :
    buildSpecies taxa a =
      { name := a.taxonScientificName, scientificName := a.taxonScientificName
        status := mapCategory a.redListCategoryCode, kingdom := ""
        phylum := "", «class» := "", order := "", family := "" } := by
  simp [buildSpecies, h]

/-- The species list of a successful `GetSpeciesByCountry` call, for any
completion order of the dispatched goroutines. -/
theorem GetSpeciesByCountry_eq (r : CountryResponse)
    (taxa : String → String → Option TaxonDetails)
    (index : String → Option String) (countryCode : String)
    (sched : List (Nat × Assessment))
    (h : sched.Perm (dispatch r.assessments 0)) :
    GetSpeciesByCountry (some r) taxa index countryCode sched =
      some { country :=
               if r.countryNameEn = "" then
                 GetCountryName index (strToUpper countryCode)
               else r.countryNameEn
             countryCode := strToUpper countryCode
             species := (qualifying r.assessments).map (buildSpecies taxa) } := by
  rw [GetSpeciesByCountry]
  rw [runFetch_perm taxa r.assessments sched h]

/-- The scientific name never produces an empty display name unless it
is itself empty. -/
theorem buildSpecies_name_ne_empty (taxa : String → String → Option TaxonDetails)
    (a : Assessment) (h : a.taxonScientificName ≠ "") :
    (buildSpecies taxa a).name ≠ "" := by
  rw [buildSpecies_name]
  cases GetSpeciesDetails taxa a.taxonScientificName with
  | none => exact h
  | some d =>
    by_cases hc : lastEnglishChoice d.commonNames = "" <;> simp [hc, h]

end iucn

namespace scraper

/-- Every species the Wikipedia row parser emits beyond the accumulator
has a non-empty name (the `name != ""` guard). -/
theorem parseRows_name_ne_empty (rows : List (List String)) (i : Nat)
    (acc : List Species) (hacc : ∀ sp ∈ acc, sp.name ≠ "") :
    ∀ sp ∈ parseRows rows i acc, sp.name ≠ "" := by
  induction rows generalizing i acc with
  | nil => exact hacc
  | cons row rest ih =>
    rw [parseRows]
    by_cases hi : i = 0
    · rw [if_pos hi]
      exact ih _ _ hacc
    · rw [if_neg hi]
      by_cases hlen : 2 ≤ row.length
      · rw [if_pos hlen]
        by_cases hguard : trimSpace (row.headD "") ≠ "" ∧ acc.length < 20
        · rw [if_pos hguard]
          refine ih _ _ ?_
          intro sp hsp
          rcases List.mem_append.mp hsp with hsp | hsp
          · exact hacc sp hsp
          · rcases List.mem_singleton.mp hsp with rfl
            exact hguard.1
        · rw [if_neg hguard]
          exact ih _ _ hacc
      · rw [if_neg hlen]
        exact ih _ _ hacc

/-- Every record of the sample-data table, and the placeholder record,
has a non-empty name. -/
theorem getSampleData_name_ne_empty (countryCode : String) :
    ∀ sp ∈ getSampleData countryCode, sp.name ≠ "" := by
  rw [getSampleData]
  cases hfind : sampleDataByRegion.find? (fun p => p.fst == countryCode) with
  | none =>
    intro sp hsp
    rcases List.mem_singleton.mp hsp with rfl
    decide
  | some p =>
    have hmem := List.mem_of_find?_eq_some hfind
    have hall : ∀ q ∈ sampleDataByRegion, ∀ sp ∈ q.snd, sp.name ≠ "" := by
      decide
    exact hall p hmem

/-- Whatever `scrapeSpeciesData` returns, every species name in it is
non-empty (the scrape guard or the sample data guarantees it). -/
theorem scrapeSpeciesData_name_ne_empty (fetched : Option (List (List String)))
    (countryCode now : String) (d : CountryData)
    (h : scrapeSpeciesData fetched countryCode now = some d) :
    ∀ sp ∈ d.species, sp.name ≠ "" := by
  rw [scrapeSpeciesData] at h
  cases hw : scrapeWikipedia fetched with
  | none =>
    rw [hw] at h
    cases h
    exact getSampleData_name_ne_empty countryCode
  | some sp =>
    rw [hw] at h
    cases h
    cases fetched with
    | none => exact Option.noConfusion hw
    | some rows =>
      simp only [scrapeWikipedia] at hw
      by_cases he : (parseRows rows 0 []).isEmpty
      · rw [if_pos he] at hw
        exact Option.noConfusion hw
      · rw [if_neg he] at hw
        cases hw
        exact parseRows_name_ne_empty rows 0 [] (by intro _ h; cases h)

/-- The cache never errors and the record it hands back carries the
uppercased request code. -/
theorem GetSpeciesByCountry_code (fetched : Option (List (List String)))
    (st : Cache) (countryCode now : String) (hwf : CacheCodesWF st) :
    ∀ d, (GetSpeciesByCountry fetched st countryCode now).1 = some d →
      d.countryCode = strToUpper countryCode := by
  intro d hd
  rw [GetSpeciesByCountry] at hd
  cases hc : st (strToUpper countryCode) with
  | some cached =>
    rw [hc] at hd
    cases hd
    exact hwf _ _ hc
  | none =>
    rw [hc] at hd
    simp only [scrapeSpeciesData] at hd
    cases hd
    rfl

/-- The scraper call always succeeds: a cache hit is returned directly
and a miss is served from `scrapeSpeciesData`, whose only return carries
a `nil` error. -/
theorem GetSpeciesByCountry_ne_none (fetched : Option (List (List String)))
    (st : Cache) (countryCode now : String) :
    (GetSpeciesByCountry fetched st countryCode now).1 ≠ none := by
  rw [GetSpeciesByCountry]
  cases hc : st (strToUpper countryCode) with
  | some cached => simp
  | none => simp [scrapeSpeciesData]

end scraper

namespace iucn

/-- The semaphore invariant: every reachable interleaving keeps the
number of in-flight detail fetches within the channel capacity. -/
theorem semInvariant (n : Nat) (phases : List TaskPhase)
    (h : SemReachable n phases) : inFlight phases ≤ semCapacity := by
  induction h with
  | refl =>
    have : inFlight (List.replicate n TaskPhase.pending) = 0 := by
      rw [inFlight]
      rw [List.countP_eq_zero]
      intro p hp
      rw [List.eq_of_mem_replicate hp]
      decide
    rw [this]
    exact Nat.zero_le _
  | tail _ hstep ih =>
    cases hstep with
    | acquire i hp hcap =>
      have hcount := countP_set (fun p => p == TaskPhase.inCall) _ i
        TaskPhase.inCall TaskPhase.pending hp
      simp only [inFlight] at hcap ⊢
      simp at hcount
      omega
    | release i hp =>
      have hcount := countP_set (fun p => p == TaskPhase.inCall) _ i
        TaskPhase.finished TaskPhase.inCall hp
      simp only [inFlight] at ih ⊢
      simp at hcount
      omega

end iucn

/-!
Section: The claims.
-/

/-- Claim C1 — For every country response produced by the IUCN variant's
`GetSpeciesByCountry`, the i-th element of the species list is built
from the i-th qualifying (CR/EN/VU) assessment in upstream discovery
order, regardless of the order in which the per-species detail fetches
complete: for every completion order (permutation of the dispatched
tasks, which write into slots pre-allocated at dispatch time), the
result is the qualifying assessments mapped in order through the
per-item goroutine body. -/
theorem claim1_ordering_pre_indexed_slots (r : iucn.CountryResponse)
    (taxa : String → String → Option iucn.TaxonDetails)
    (index : String → Option String) (countryCode : String)
    (sched : List (Nat × iucn.Assessment))
    (h : sched.Perm (iucn.dispatch r.assessments 0)) :
    iucn.GetSpeciesByCountry (some r) taxa index countryCode sched =
      some { country :=
               if r.countryNameEn = "" then
                 iucn.GetCountryName index (strToUpper countryCode)
               else r.countryNameEn
             countryCode := strToUpper countryCode
             species := (iucn.qualifying r.assessments).map (iucn.buildSpecies taxa) } :=
  iucn.GetSpeciesByCountry_eq r taxa index countryCode sched h

/-- Claim C1 witness — a three-assessment response whose second detail
fetch completes first still lists the species in discovery order. -/
theorem claim1_witness :
    iucn.GetSpeciesByCountry (some wResp) wTaxaFail wIndex "br" wSchedRev =
      some { country := "Brazil", countryCode := "BR"
             species := [{ name := "Panthera onca", scientificName := "Panthera onca"
                           status := "Critically Endangered", kingdom := ""
                           phylum := "", «class» := "", order := "", family := "" },
                         { name := "Ailurus fulgens", scientificName := "Ailurus fulgens"
                           status := "Endangered", kingdom := "", phylum := ""
                           «class» := "", order := "", family := "" }] } := by
  rw [claim1_ordering_pre_indexed_slots wResp wTaxaFail wIndex "br" wSchedRev (by decide)]
  decide

/-- Claim C2 — A failed per-species detail fetch never fails the batch:
whenever the assessment list was obtained, the call returns a record, and
the slot of every assessment whose detail fetch failed holds the
assessment-only species (scientific name and mapped status, empty
taxonomic ranks, display name fallen back to the scientific name). -/
theorem claim2_detail_failure_degrades_locally (r : iucn.CountryResponse)
    (taxa : String → String → Option iucn.TaxonDetails)
    (index : String → Option String) (countryCode : String)
    (sched : List (Nat × iucn.Assessment))
    (h : sched.Perm (iucn.dispatch r.assessments 0))
    (i : Nat) (a : iucn.Assessment)
    (ha : (iucn.qualifying r.assessments)[i]? = some a)
    (hfail : iucn.GetSpeciesDetails taxa a.taxonScientificName = none) :
    iucn.GetSpeciesByCountry (some r) taxa index countryCode sched ≠ none ∧
    (iucn.GetSpeciesByCountry (some r) taxa index countryCode sched).bind
        (fun d => d.species[i]?) =
      some { name := a.taxonScientificName
             scientificName := a.taxonScientificName
             status := iucn.mapCategory a.redListCategoryCode
             kingdom := "", phylum := "", «class» := "", order := ""
             family := "" } := by
  rw [iucn.GetSpeciesByCountry_eq r taxa index countryCode sched h]
  refine ⟨by simp, ?_⟩
  rw [Option.some_bind]
  simp only
  rw [List.getElem?_map, ha, Option.map_some']
  rw [iucn.buildSpecies_of_fetch_failed taxa a hfail]

/-- Claim C2 witness — with every detail fetch failing, the two-assessment
batch still succeeds and slot 0 carries the assessment-only record. -/
theorem claim2_witness :
    iucn.GetSpeciesByCountry (some wResp) wTaxaFail wIndex "BR" wSchedRev ≠ none ∧
    (iucn.GetSpeciesByCountry (some wResp) wTaxaFail wIndex "BR" wSchedRev).bind
        (fun d => d.species[0]?) =
      some { name := wA.taxonScientificName
             scientificName := wA.taxonScientificName
             status := iucn.mapCategory wA.redListCategoryCode
             kingdom := "", phylum := "", «class» := "", order := ""
             family := "" } :=
  claim2_detail_failure_degrades_locally wResp wTaxaFail wIndex "BR" wSchedRev
    (by decide) 0 wA (by decide) (by decide)

/-- Claim C3 counterexample — the claim says that without a
primary-flagged English entry the *first* English-tagged entry is
selected; on common names `[("A","eng",false), ("B","eng",false)]` the
code's loop overwrites the name at every English entry and therefore
selects the *last* one, `"B"`, not the specification's `"A"`. -/
theorem claim3_counterexample :
    (iucn.buildSpecies wTaxaDetails wAssessmentT).name = "B" ∧
    firstEnglishChoice wDetails.commonNames = some "A" ∧
    (iucn.buildSpecies wTaxaDetails wAssessmentT).name ≠ "A" := by
  refine ⟨by decide, by decide, by decide⟩

/-- Claim C3 (amended) — for every `TaxonDetail` obtained by a successful
detail fetch, the selected display name is: the first entry whose
language tag is `"eng"` and whose primary flag is set; if no English
entry has the primary flag, the *last* English-tagged entry encountered;
and the scientific name if there is no English-tagged entry at all or
the selected entry's name is empty. -/
theorem claim3_last_english_selection
    (taxa : String → String → Option iucn.TaxonDetails) (a : iucn.Assessment)
    (d : iucn.TaxonDetails)
    (h : iucn.GetSpeciesDetails taxa a.taxonScientificName = some d) :
    (iucn.buildSpecies taxa a).name =
      if iucn.lastEnglishChoice d.commonNames = "" then a.taxonScientificName
      else iucn.lastEnglishChoice d.commonNames := by
  rw [iucn.buildSpecies_name, h]

/-- Claim C3 witness — the amended selection applied to the concrete
two-English-names detail: the loop's result is `"B"`. -/
theorem claim3_witness :
    (iucn.buildSpecies wTaxaDetails wAssessmentT).name =
      if iucn.lastEnglishChoice wDetails.commonNames = "" then
        wAssessmentT.taxonScientificName
      else iucn.lastEnglishChoice wDetails.commonNames :=
  claim3_last_english_selection wTaxaDetails wAssessmentT wDetails (by decide)

/-- Claim C4 — Only assessments with category code CR, EN or VU contribute
a species (`isEndangered` rejects NT and every other code), the result
is the first 20 qualifying assessments in discovery order, and therefore
never holds more than 20 species. -/
theorem claim4_filter_and_cap (r : iucn.CountryResponse)
    (taxa : String → String → Option iucn.TaxonDetails)
    (index : String → Option String) (countryCode : String)
    (sched : List (Nat × iucn.Assessment))
    (h : sched.Perm (iucn.dispatch r.assessments 0)) :
    (iucn.GetSpeciesByCountry (some r) taxa index countryCode sched).map
        iucn.CountryData.species =
      some (((r.assessments.filter
          (fun a => iucn.isEndangered a.redListCategoryCode)).take 20).map
        (iucn.buildSpecies taxa)) ∧
    (iucn.GetSpeciesByCountry (some r) taxa index countryCode sched).map
        (fun d => d.species.length ≤ 20) = some True ∧
    iucn.isEndangered "NT" = false ∧
    iucn.mapCategory "NT" = "Near Threatened" := by
  rw [iucn.GetSpeciesByCountry_eq r taxa index countryCode sched h]
  refine ⟨rfl, ?_, by decide, by decide⟩
  rw [Option.map_some']
  congr 1
  simp only [eq_iff_iff, iff_true]
  rw [List.length_map]
  calc (iucn.qualifying r.assessments).length
      ≤ 20 := by
        rw [iucn.qualifying, List.length_take]
        exact min_le_left _ _

/-- Claim C4 witness — 23 qualifying assessments yield exactly the first
20, and NT is excluded while still having a display label. -/
theorem claim4_witness :
    (iucn.GetSpeciesByCountry (some wBigResp) wTaxaFail wIndex "BR"
        (iucn.dispatch wBigResp.assessments 0)).map iucn.CountryData.species =
      some (((wBigResp.assessments.filter
          (fun a => iucn.isEndangered a.redListCategoryCode)).take 20).map
        (iucn.buildSpecies wTaxaFail)) ∧
    (iucn.GetSpeciesByCountry (some wBigResp) wTaxaFail wIndex "BR"
        (iucn.dispatch wBigResp.assessments 0)).map
        (fun d => d.species.length ≤ 20) = some True ∧
    iucn.isEndangered "NT" = false ∧
    iucn.mapCategory "NT" = "Near Threatened" :=
  claim4_filter_and_cap wBigResp wTaxaFail wIndex "BR" _ (List.Perm.refl _)

/-- Every record the scraper hands out (from a well-formed cache or
freshly scraped) carries only species with non-empty names. -/
theorem scraper_GetSpeciesByCountry_names (fetched : Option (List (List String)))
    (st : scraper.Cache) (countryCode now : String)
    (hwf : scraper.CacheNamesWF st) :
    ∀ d, (scraper.GetSpeciesByCountry fetched st countryCode now).1 = some d →
      ∀ sp ∈ d.species, sp.name ≠ "" := by
  intro d hd
  rw [scraper.GetSpeciesByCountry] at hd
  cases hc : st (strToUpper countryCode) with
  | some cached =>
    rw [hc] at hd
    cases hd
    exact hwf _ _ hc
  | none =>
    rw [hc] at hd
    simp only [scraper.scrapeSpeciesData] at hd
    cases hd
    exact scraper.scrapeSpeciesData_name_ne_empty fetched (strToUpper countryCode)
      now _ rfl

/-- Claim C5 counterexample — the claim promises a non-empty name for
every species of every returned record; an upstream assessment whose
scientific name is empty (category CR, detail fetch necessarily failing
on the empty name) produces a returned record whose only species has an
empty name. -/
theorem claim5_counterexample :
    iucn.GetSpeciesByCountry (some wEmptyNameResp) wTaxaFail wIndex "AQ"
        (iucn.dispatch wEmptyNameResp.assessments 0) =
      some { country := "Atlantis", countryCode := "AQ"
             species := [{ name := "", scientificName := ""
                           status := "Critically Endangered", kingdom := ""
                           phylum := "", «class» := "", order := ""
                           family := "" }] } := by
  decide

/-- Claim C5 (amended) — every species of every returned record has a
non-empty name *provided* every assessment's scientific name is
non-empty (IUCN variant; the fallback name is the scientific name), and
unconditionally in the scraper variant (given that cached records
satisfy it, as every record the scraper stores does). -/
theorem claim5_nonempty_names (r : iucn.CountryResponse)
    (taxa : String → String → Option iucn.TaxonDetails)
    (index : String → Option String) (countryCode : String)
    (sched : List (Nat × iucn.Assessment))
    (h : sched.Perm (iucn.dispatch r.assessments 0))
    (hnames : r.assessments.all (fun a => !(a.taxonScientificName == "")) = true)
    (fetched : Option (List (List String))) (st : scraper.Cache)
    (scode now : String) (hwf : scraper.CacheNamesWF st) :
    (iucn.GetSpeciesByCountry (some r) taxa index countryCode sched).map
        (fun d => d.species.all (fun sp => !(sp.name == ""))) = some true ∧
    ((scraper.GetSpeciesByCountry fetched st scode now).1).map
        (fun d => d.species.all (fun sp => !(sp.name == ""))) = some true := by
  constructor
  · rw [iucn.GetSpeciesByCountry_eq r taxa index countryCode sched h,
      Option.map_some']
    congr 1
    rw [List.all_eq_true]
    intro sp hsp
    rcases List.mem_map.mp hsp with ⟨a, hmem, rfl⟩
    have hmem' : a ∈ r.assessments :=
      (List.mem_filter.mp (List.mem_of_mem_take hmem)).1
    have hname : a.taxonScientificName ≠ "" := by
      simpa using (List.all_eq_true.mp hnames) a hmem'
    simpa using iucn.buildSpecies_name_ne_empty taxa a hname
  · cases hres : (scraper.GetSpeciesByCountry fetched st scode now).1 with
    | none => exact absurd hres (scraper.GetSpeciesByCountry_ne_none fetched st scode now)
    | some d =>
      rw [Option.map_some']
      congr 1
      rw [List.all_eq_true]
      intro sp hsp
      simpa using scraper_GetSpeciesByCountry_names fetched st scode now hwf d
        hres sp hsp

/-- Claim C5 witness — the non-empty-name invariant evaluated on the
concrete three-assessment response and on a fresh scraper serving the
fallback sample data. -/
theorem claim5_witness :
    (iucn.GetSpeciesByCountry (some wResp) wTaxaFail wIndex "BR" wSchedRev).map
        (fun d => d.species.all (fun sp => !(sp.name == ""))) = some true ∧
    ((scraper.GetSpeciesByCountry none scraper.emptyCache "us" "2025").1).map
        (fun d => d.species.all (fun sp => !(sp.name == ""))) = some true :=
  claim5_nonempty_names wResp wTaxaFail wIndex "BR" wSchedRev (by decide)
    (by decide) none scraper.emptyCache "us" "2025"
    (fun _ _ hmem => Option.noConfusion hmem)

/-- Claim C6 — For every number of dispatched tasks and every interleaving
of the fan-out's goroutines (each acquiring a slot of the capacity-10
counting semaphore before its detail call and releasing it after), at
most `semCapacity = 10` detail-fetch calls are in flight simultaneously
in every reachable state. -/
theorem claim6_concurrency_ceiling (n : Nat) (phases : List iucn.TaskPhase)
    (h : iucn.SemReachable n phases) :
    iucn.inFlight phases ≤ iucn.semCapacity :=
  iucn.semInvariant n phases h

/-- Claim C6 witness — a 12-task fan-out after one acquire step has one
call in flight, within the ceiling. -/
theorem claim6_witness :
    iucn.inFlight ((List.replicate 12 iucn.TaskPhase.pending).set 0
        iucn.TaskPhase.inCall) ≤ iucn.semCapacity :=
  claim6_concurrency_ceiling 12 _
    (Relation.ReflTransGen.single
      (iucn.SemStep.acquire (List.replicate 12 iucn.TaskPhase.pending) 0
        (by decide) (by decide)))

/-- Claim C7 — In the scraper variant, a second call for the same country
code made after a first call returns exactly the first call's record —
the `LastUpdated` timestamp included, whatever wall-clock time `now2`
the second call observes — and leaves the cache untouched; the first
call always succeeds. -/
theorem claim7_cache_memoization (fetched : Option (List (List String)))
    (st : scraper.Cache) (code now1 now2 : String) :
    scraper.GetSpeciesByCountry fetched
        (scraper.GetSpeciesByCountry fetched st code now1).2 code now2 =
      scraper.GetSpeciesByCountry fetched st code now1 ∧
    (scraper.GetSpeciesByCountry fetched st code now1).1 ≠ none := by
  cases hc : st (strToUpper code) with
  | some d =>
    simp only [scraper.GetSpeciesByCountry, hc]
    constructor
    · simp
    · simp
  | none =>
    simp only [scraper.GetSpeciesByCountry, scraper.scrapeSpeciesData, hc]
    constructor
    · simp
    · simp

/-- Claim C8 counterexample — the claim requires the invalid-name error
exactly when splitting on *whitespace* yields fewer than two tokens; on
`"Panthera\tonca"` (a tab separator) whitespace-splitting yields the two
tokens `["Panthera", "onca"]`, yet the code splits on the space
character only, sees one part, and errors without an upstream call. -/
theorem claim8_counterexample :
    (specWhitespaceTokens "Panthera\tonca").length = 2 ∧
    iucn.GetSpeciesDetailsStep "Panthera\tonca" = iucn.DetailOutcome.invalidName ∧
    iucn.GetSpeciesDetails wTaxaDetails "Panthera\tonca" = none := by
  refine ⟨by decide, by decide, by decide⟩

/-- Claim C8 (amended) — `GetSpeciesDetails` fails with the invalid-name
error, without issuing any upstream call, if and only if splitting the
name on the *space character* (empty parts counted, as
`strings.Split(s, " ")` does) yields fewer than two parts; with two or
more parts it issues the upstream call on the first two parts. -/
theorem claim8_space_split_validation (s : String)
    (taxa : String → String → Option iucn.TaxonDetails) :
    if (splitOnSpace s).length < 2 then
      iucn.GetSpeciesDetailsStep s = iucn.DetailOutcome.invalidName ∧
      iucn.GetSpeciesDetails taxa s = none
    else
      iucn.GetSpeciesDetailsStep s =
        iucn.DetailOutcome.upstream ((splitOnSpace s).headD "")
          ((splitOnSpace s).getD 1 "") ∧
      iucn.GetSpeciesDetails taxa s =
        taxa ((splitOnSpace s).headD "") ((splitOnSpace s).getD 1 "") := by
  by_cases hlen : (splitOnSpace s).length < 2
  · rw [if_pos hlen]
    have hstep : iucn.GetSpeciesDetailsStep s = iucn.DetailOutcome.invalidName := by
      simp only [iucn.GetSpeciesDetailsStep]
      rw [if_pos hlen]
    exact ⟨hstep, by rw [iucn.GetSpeciesDetails, hstep]⟩
  · rw [if_neg hlen]
    have hstep : iucn.GetSpeciesDetailsStep s =
        iucn.DetailOutcome.upstream ((splitOnSpace s).headD "")
          ((splitOnSpace s).getD 1 "") := by
      simp only [iucn.GetSpeciesDetailsStep]
      rw [if_neg hlen]
    exact ⟨hstep, by rw [iucn.GetSpeciesDetails, hstep]⟩

/-- Claim C9 — A successful response carries `country_code` equal to the
uppercased input in both pipeline variants (for the scraper variant,
given that every cached record sits under its own uppercased key, as
every record the scraper stores does); lowercase and uppercase forms of
the same code therefore yield identical `country_code` values. -/
theorem claim9_uppercase_country_code (r : iucn.CountryResponse)
    (taxa : String → String → Option iucn.TaxonDetails)
    (index : String → Option String) (countryCode : String)
    (sched : List (Nat × iucn.Assessment))
    (h : sched.Perm (iucn.dispatch r.assessments 0))
    (fetched : Option (List (List String))) (st : scraper.Cache)
    (scode now : String) (hwf : scraper.CacheCodesWF st) :
    (iucn.GetSpeciesByCountry (some r) taxa index countryCode sched).map
        iucn.CountryData.countryCode = some (strToUpper countryCode) ∧
    ((scraper.GetSpeciesByCountry fetched st scode now).1).map
        scraper.CountryData.countryCode = some (strToUpper scode) := by
  constructor
  · rw [iucn.GetSpeciesByCountry_eq r taxa index countryCode sched h]
    rfl
  · cases hres : (scraper.GetSpeciesByCountry fetched st scode now).1 with
    | none => exact absurd hres (scraper.GetSpeciesByCountry_ne_none fetched st scode now)
    | some d =>
      rw [Option.map_some']
      exact congrArg some
        (scraper.GetSpeciesByCountry_code fetched st scode now hwf d hres)

/-- Claim C9 witness — the lowercase input `"br"` / `"us"` yields the
uppercased `country_code` `"BR"` / `"US"` in both variants, identical
to what the uppercase inputs `"BR"` / `"US"` yield. -/
theorem claim9_witness :
    ((iucn.GetSpeciesByCountry (some wResp) wTaxaFail wIndex "br" wSchedRev).map
        iucn.CountryData.countryCode = some "BR" ∧
     ((scraper.GetSpeciesByCountry none scraper.emptyCache "us" "2025").1).map
        scraper.CountryData.countryCode = some "US") ∧
    ((iucn.GetSpeciesByCountry (some wResp) wTaxaFail wIndex "BR" wSchedRev).map
        iucn.CountryData.countryCode = some "BR" ∧
     ((scraper.GetSpeciesByCountry none scraper.emptyCache "US" "2025").1).map
        scraper.CountryData.countryCode = some "US") :=
  ⟨claim9_uppercase_country_code wResp wTaxaFail wIndex "br" wSchedRev
      (by decide) none scraper.emptyCache "us" "2025"
      (fun _ _ hmem => Option.noConfusion hmem),
   claim9_uppercase_country_code wResp wTaxaFail wIndex "BR" wSchedRev
      (by decide) none scraper.emptyCache "US" "2025"
      (fun _ _ hmem => Option.noConfusion hmem)⟩

/-- Claim C10 — The scraper variant's `GetSpeciesByCountry` never returns
an error for any country code (a failed Wikipedia scrape falls back to
sample data, and unknown codes get the placeholder record), so for every
input whose trimmed form has exactly 2 characters the handler answers
200 — its 500 branch is unreachable in this variant. -/
theorem claim10_scraper_never_errors (fetched : Option (List (List String)))
    (st : scraper.Cache) (now codeA codeB : String)
    (h : (trimSpace codeB).length = 2) :
    (scraper.GetSpeciesByCountry fetched st codeA now).1 ≠ none ∧
    handlers.handlerStatus fetched st codeB now = 200 := by
  refine ⟨scraper.GetSpeciesByCountry_ne_none fetched st codeA now, ?_⟩
  rw [handlers.handlerStatus]
  have hne : trimSpace codeB ≠ "" := by
    intro he
    rw [he] at h
    exact absurd h (by decide)
  rw [if_neg hne, if_neg (by simp [h])]
  cases hres : (scraper.GetSpeciesByCountry fetched st (trimSpace codeB) now).1 with
  | none =>
    exact absurd hres
      (scraper.GetSpeciesByCountry_ne_none fetched st (trimSpace codeB) now)
  | some d => rfl

/-- Claim C10 witness — a fresh scraper with a failed Wikipedia fetch
still succeeds for an unknown code, and the handler answers 200 for the
2-character input `"zz"`. -/
theorem claim10_witness :
    (scraper.GetSpeciesByCountry none scraper.emptyCache "zz" "2025").1 ≠ none ∧
    handlers.handlerStatus none scraper.emptyCache "zz" "2025" = 200 :=
  claim10_scraper_never_errors none scraper.emptyCache "2025" "zz" "zz" (by decide)
